import Mathlib

/-!
# Verification of the juno transaction and JSON-RPC core

A shallow embedding of the transaction-hashing, hash-verification and
commitment logic of `core/transaction.go` and of the JSON-RPC 2.0
dispatcher of `jsonrpc/server.go`, together with theorems settling the
specification's claims about them.

Field elements are residues modulo the StarkNet prime; the two-input
Pedersen hash itself is an external cryptographic primitive, so all
hashing definitions are parametrised by an arbitrary function
`pedersen : Felt → Felt → Felt` and the theorems hold for every such
function.
-/

set_option autoImplicit false

namespace Juno

/-- The StarkNet prime `p = 2^251 + 17·2^192 + 1`. -/
def starkPrime : ℕ := 2 ^ 251 + 17 * 2 ^ 192 + 1

/-- A field element, represented as its canonical residue (a natural
number below `starkPrime`).  Structural equality of residues mirrors
`felt.Felt.Equal`. -/
abbrev Felt := ℕ

/-- `felt.SetBytes` on the ASCII bytes of a string: a big-endian
byte value reduced modulo the prime (the strings used are at most 31
bytes, so the reduction is the identity on them). -/
def feltOfString (s : String) : Felt :=
  (s.data.foldl (fun acc c => acc * 256 + c.toNat) 0) % starkPrime

/-- `invokeFelt = new(felt.Felt).SetBytes([]byte("invoke"))`. -/
def invokeFelt : Felt := feltOfString "invoke"

/-- `declareFelt = new(felt.Felt).SetBytes([]byte("declare"))`. -/
def declareFelt : Felt := feltOfString "declare"

/-- `l1HandlerFelt = new(felt.Felt).SetBytes([]byte("l1_handler"))`. -/
def l1HandlerFelt : Felt := feltOfString "l1_handler"

/-- `deployAccountFelt = new(felt.Felt).SetBytes([]byte("deploy_account"))`. -/
def deployAccountFelt : Felt := feltOfString "deploy_account"

/-- Modelled from the spec: `utils.Network` (the network enumeration is
not under `src/`; §4.3 and §6 list the four networks and their chain
identifier strings). -/
inductive Network where
  | mainnet
  | goerli
  | goerli2
  | integration
  deriving DecidableEq, Repr

/-- Modelled from the spec: `utils.Network.ChainID`, the field-element
encoding of the network's ASCII identifier (`"SN_MAIN"`, `"SN_GOERLI"`,
`"SN_GOERLI2"`, `"SN_INTEGRATION"`). -/
def Network.chainID : Network → Felt
  | .mainnet => feltOfString "SN_MAIN"
  | .goerli => feltOfString "SN_GOERLI"
  | .goerli2 => feltOfString "SN_GOERLI2"
  | .integration => feltOfString "SN_INTEGRATION"

/-- The chain identifier of MAINNET, `SetBytes([]byte("SN_MAIN"))`. -/
def chainIdMain : Felt := Network.chainID .mainnet

/-! ## Transaction model (`core/transaction.go`) -/

/-- `DeployTransaction`. -/
structure DeployTransaction where
  transactionHash : Felt
  contractAddressSalt : Felt
  contractAddress : Felt
  classHash : Felt
  constructorCallData : List Felt
  version : Felt
  deriving DecidableEq, Repr

/-- `DeployAccountTransaction`: embeds `DeployTransaction` and adds max
fee, signature and nonce. -/
structure DeployAccountTransaction extends DeployTransaction where
  maxFee : Felt
  transactionSignature : List Felt
  nonce : Felt
  deriving DecidableEq, Repr

/-- `InvokeTransaction`. -/
structure InvokeTransaction where
  transactionHash : Felt
  callData : List Felt
  transactionSignature : List Felt
  maxFee : Felt
  contractAddress : Felt
  version : Felt
  entryPointSelector : Felt
  nonce : Felt
  senderAddress : Felt
  deriving DecidableEq, Repr

/-- `DeclareTransaction`. -/
structure DeclareTransaction where
  transactionHash : Felt
  classHash : Felt
  senderAddress : Felt
  maxFee : Felt
  transactionSignature : List Felt
  nonce : Felt
  version : Felt
  compiledClassHash : Felt
  deriving DecidableEq, Repr

/-- `L1HandlerTransaction`; its nonce pointer may be nil, modelled by
`Option`. -/
structure L1HandlerTransaction where
  transactionHash : Felt
  contractAddress : Felt
  entryPointSelector : Felt
  nonce : Option Felt
  callData : List Felt
  version : Felt
  deriving DecidableEq, Repr

/-- The `Transaction` interface as a closed sum of its five
implementations. -/
inductive Transaction where
  | deploy (t : DeployTransaction)
  | deployAccount (t : DeployAccountTransaction)
  | declare (t : DeclareTransaction)
  | invoke (t : InvokeTransaction)
  | l1Handler (t : L1HandlerTransaction)
  deriving DecidableEq, Repr

/-- `Transaction.Hash()`: every variant returns its stored hash. -/
def Transaction.hash : Transaction → Felt
  | .deploy t => t.transactionHash
  | .deployAccount t => t.transactionHash
  | .declare t => t.transactionHash
  | .invoke t => t.transactionHash
  | .l1Handler t => t.transactionHash

/-- `Transaction.Signature()`: Deploy and L1Handler return an empty
slice, the others their stored signature. -/
def Transaction.signature : Transaction → List Felt
  | .deploy _ => []
  | .deployAccount t => t.transactionSignature
  | .declare t => t.transactionSignature
  | .invoke t => t.transactionSignature
  | .l1Handler _ => []

/-- `errInvalidTransactionVersion` (a formatted error recording the
transaction and the offending version). -/
inductive HashError where
  | invalidTransactionVersion (t : Transaction) (version : Felt)
  deriving DecidableEq, Repr

section Hashing

variable (pedersen : Felt → Felt → Felt)

/-- Modelled from the spec: `crypto.PedersenArray` (not under `src/`;
§4.1 defines it as the left fold `acc ← pedersen(acc, xᵢ)` from
`acc = 0` followed by `acc ← pedersen(acc, n)` with `n` the element
count). -/
def PedersenArray (xs : List Felt) : Felt :=
  pedersen (xs.foldl pedersen 0) xs.length

/-- `invokeTransactionHash`. -/
def invokeTransactionHash (i : InvokeTransaction) (n : Network) :
    Except HashError Felt :=
  if i.version = 0 then
    .ok i.transactionHash
  else if i.version = 1 then
    .ok (PedersenArray pedersen
      [invokeFelt, i.version, i.senderAddress, 0,
       PedersenArray pedersen i.callData, i.maxFee, n.chainID, i.nonce])
  else
    .error (.invalidTransactionVersion (.invoke i) i.version)

/-- `declareTransactionHash`. -/
def declareTransactionHash (d : DeclareTransaction) (n : Network) :
    Except HashError Felt :=
  if d.version = 0 then
    .ok d.transactionHash
  else if d.version = 1 then
    .ok (PedersenArray pedersen
      [declareFelt, d.version, d.senderAddress, 0,
       PedersenArray pedersen [d.classHash], d.maxFee, n.chainID, d.nonce])
  else if d.version = 2 then
    .ok (PedersenArray pedersen
      [declareFelt, d.version, d.senderAddress, 0,
       PedersenArray pedersen [d.classHash], d.maxFee, n.chainID, d.nonce,
       d.compiledClassHash])
  else
    .error (.invalidTransactionVersion (.declare d) d.version)

/-- `l1HandlerTransactionHash`. -/
def l1HandlerTransactionHash (l : L1HandlerTransaction) (n : Network) :
    Except HashError Felt :=
  if l.version = 0 then
    match l.nonce with
    | none => .ok l.transactionHash
    | some nonce =>
      .ok (PedersenArray pedersen
        [l1HandlerFelt, l.version, l.contractAddress, l.entryPointSelector,
         PedersenArray pedersen l.callData, 0, n.chainID, nonce])
  else
    .error (.invalidTransactionVersion (.l1Handler l) l.version)

/-- `deployAccountTransactionHash`. -/
def deployAccountTransactionHash (d : DeployAccountTransaction)
    (n : Network) : Except HashError Felt :=
  let callData := [d.classHash, d.contractAddressSalt] ++ d.constructorCallData
  if d.version = 1 then
    .ok (PedersenArray pedersen
      [deployAccountFelt, d.version, d.contractAddress, 0,
       PedersenArray pedersen callData, d.maxFee, n.chainID, d.nonce])
  else
    .error (.invalidTransactionVersion (.deployAccount d) d.version)

/-- `transactionHash`: dispatch on the transaction variant; Deploy
transactions are deprecated and their declared hash is trusted. -/
def transactionHash (t : Transaction) (n : Network) : Except HashError Felt :=
  match t with
  | .declare d => declareTransactionHash pedersen d n
  | .invoke i => invokeTransactionHash pedersen i n
  | .deploy d => .ok d.transactionHash
  | .l1Handler l => l1HandlerTransactionHash pedersen l n
  | .deployAccount d => deployAccountTransactionHash pedersen d n

end Hashing

/-- `CantVerifyTransactionHashError`: a transaction whose hash could not
be verified, an optional hashing failure, and a `next` pointer forming a
singly-linked chain (`Unwrap` follows `next`). -/
inductive CantVerifyError where
  | mk (t : Transaction) (hashFailure : Option HashError)
      (next : Option CantVerifyError)
  deriving Repr

/-- The transaction stored in a chain node. -/
def CantVerifyError.tx : CantVerifyError → Transaction
  | .mk t _ _ => t

/-- `Unwrap`: the tail of the chain. -/
def CantVerifyError.unwrap : CantVerifyError → Option CantVerifyError
  | .mk _ _ next => next

/-- Number of nodes reachable through `next` (the node itself
included). -/
def CantVerifyError.chainLength : CantVerifyError → ℕ
  | .mk _ _ none => 1
  | .mk _ _ (some next) => 1 + next.chainLength

/-- The transactions along the chain, head first. -/
def CantVerifyError.chainTxs : CantVerifyError → List Transaction
  | .mk t _ none => [t]
  | .mk t _ (some next) => t :: next.chainTxs

/-- Chain length of an optional chain (`none` counts as zero). -/
def chainLengthOpt : Option CantVerifyError → ℕ
  | none => 0
  | some e => e.chainLength

/-- Transactions of an optional chain (`none` yields the empty list). -/
def chainTxsOpt : Option CantVerifyError → List Transaction
  | none => []
  | some e => e.chainTxs

section Verify

variable (pedersen : Felt → Felt → Felt)

/-- `verifyTransactionHash`: recompute the hash; report a
`CantVerifyTransactionHashError` when hashing fails or the recomputed
hash differs from the declared one. -/
def verifyTransactionHash (t : Transaction) (n : Network) :
    Option CantVerifyError :=
  match transactionHash pedersen t n with
  | .error e => some (.mk t (some e) none)
  | .ok h => if h = t.hash then none else some (.mk t none none)

/-- One step of the `verifyTransactions` loop: on failure the fresh
error's `next` is set to the current head and becomes the new head. -/
def verifyStep (n : Network) (head : Option CantVerifyError)
    (tx : Transaction) : Option CantVerifyError :=
  match verifyTransactionHash pedersen tx n with
  | some (.mk t f _) => some (.mk t f head)
  | none => head

/-- `verifyTransactions`: fold the step over the whole list (no
short-circuit) and return the accumulated head, `none` when empty. -/
def verifyTransactions (txs : List Transaction) (n : Network) :
    Option CantVerifyError :=
  txs.foldl (verifyStep pedersen n) none

/-- The transactions of `txs` whose hash verification fails. -/
def mismatchTxs (txs : List Transaction) (n : Network) : List Transaction :=
  txs.filter (fun tx => (verifyTransactionHash pedersen tx n).isSome)

end Verify

/-! ## Transaction commitment (`transactionCommitment`)

The commitment runs on a scoped height-64 trie (`trie.RunOnTempTrie`,
outside `src/`); what the claims state is the sequence of `Put` calls
the loop issues, which we record in order. -/

/-- `new(felt.Felt).SetUint64`: a 64-bit index as a field element (the
reduction is the identity for all `u < 2^64`). -/
def fromUint64 (u : ℕ) : Felt := u % starkPrime

/-- Whether the transaction is an Invoke variant (the type assertion
`transaction.(*InvokeTransaction)`). -/
def Transaction.isInvoke : Transaction → Bool
  | .invoke _ => true
  | _ => false

section Commitment

variable (pedersen : Felt → Felt → Felt)

/-- One iteration of the `transactionCommitment` loop: compute the
signature hash (`PedersenArray()` unless the transaction is an Invoke,
in which case `PedersenArray(signature...)`) and append the `Put` of
`(SetUint64 i, Pedersen(hash, signatureHash))`. -/
def commitmentStep (st : ℕ × List (Felt × Felt)) (tx : Transaction) :
    ℕ × List (Felt × Felt) :=
  let signatureHash :=
    if tx.isInvoke then PedersenArray pedersen tx.signature
    else PedersenArray pedersen []
  (st.1 + 1, st.2 ++ [(fromUint64 st.1, pedersen tx.hash signatureHash)])

/-- The ordered key/value pairs `transactionCommitment` inserts into the
temporary trie. -/
def transactionCommitmentPuts (txs : List Transaction) :
    List (Felt × Felt) :=
  (txs.foldl (commitmentStep pedersen) (0, [])).2

end Commitment

/-! ## JSON-RPC 2.0 dispatcher (`jsonrpc/server.go`)

JSON values are modelled as a tree; numbers keep their literal text,
mirroring `json.Decoder.UseNumber`, under which every JSON number
decodes to a `json.Number` string.  Decoding a request body and binding
each argument to the handler's Go parameter type are the two places the
Go code round-trips through `encoding/json`; argument binding is
type-directed, so each method carries its own per-parameter decoding
function. -/

/-- A JSON value (`any` after `UseNumber` decoding: `nil`, `bool`,
`json.Number`, `string`, `[]any`, `map[string]any`). -/
inductive JsonValue where
  | null
  | boolv (b : Bool)
  | number (text : String)
  | str (s : String)
  | arr (xs : List JsonValue)
  | obj (fields : List (String × JsonValue))

/-- The `request` struct: `jsonrpc`, `method`, `params`, `id`; the two
`any` fields are `none` when the JSON field is absent or `null` (Go's
`nil`). -/
structure Request where
  version : String
  method : String
  params : Option JsonValue
  id : Option JsonValue

/-- A zero `request` before decoding. -/
def Request.empty : Request := ⟨"", "", none, none⟩

/-- `encoding/json` matches an incoming object key to a struct field
by its `json` tag, exactly or ASCII case-insensitively (an `"ID"` or
`"Method"` key also sets the tagged field), so keys are compared after
lowercasing. -/
def foldKey (s : String) : String := ⟨s.data.map Char.toLower⟩

/-- Decoding one object field into the `request` struct, as
`encoding/json` does: keys match the field tags case-insensitively,
`jsonrpc` and `method` must be strings (`null` is ignored, anything
else is a type error), `params` and `id` accept any value with `null`
decoding to `nil`, unknown keys are skipped, and a later duplicate key
overwrites an earlier one. -/
def applyRequestField (r : Request) (f : String × JsonValue) :
    Except String Request :=
  if foldKey f.1 = "jsonrpc" then
    match f.2 with
    | .str s => .ok { r with version := s }
    | .null => .ok r
    | _ => .error "json: cannot unmarshal value into field jsonrpc of type string"
  else if foldKey f.1 = "method" then
    match f.2 with
    | .str s => .ok { r with method := s }
    | .null => .ok r
    | _ => .error "json: cannot unmarshal value into field method of type string"
  else if foldKey f.1 = "params" then
    match f.2 with
    | .null => .ok { r with params := none }
    | v => .ok { r with params := some v }
  else if foldKey f.1 = "id" then
    match f.2 with
    | .null => .ok { r with id := none }
    | v => .ok { r with id := some v }
  else
    .ok r

/-- `dec.Decode(req)`: a request decodes from a JSON object by folding
its fields into the zero struct; a JSON `null` is a no-op that leaves
the struct at its zero value; any other JSON value is a type error. -/
def decodeRequest (v : JsonValue) : Except String Request :=
  match v with
  | .obj fields => fields.foldlM applyRequestField Request.empty
  | .null => .ok Request.empty
  | _ => .error "json: cannot unmarshal value into Go value of type jsonrpc.request"

/-- The four failures `request.isSane` can report; `invalidId` is the
distinguished `ErrInvalidID`. -/
inductive SanityErr where
  | badVersion
  | noMethod
  | badParams
  | invalidId
  deriving DecidableEq, Repr

/-- The `error` strings `isSane` produces. -/
def SanityErr.message : SanityErr → String
  | .badVersion => "unsupported RPC request version"
  | .noMethod => "no method specified"
  | .badParams => "params should be an array or an object"
  | .invalidId => "id should be a string or an integer"

/-- `request.isSane`: version must be `"2.0"`, a method must be named,
a present `params` must be an array or an object, and a present `id`
must be a string or a non-floating `json.Number`. -/
def isSane (r : Request) : Option SanityErr :=
  if r.version ≠ "2.0" then some .badVersion
  else if r.method = "" then some .noMethod
  else
    let paramsOk := match r.params with
      | none => true
      | some (.arr _) => true
      | some (.obj _) => true
      | some _ => false
    if paramsOk then
      let idOk := match r.id with
        | none => true
        | some (.str _) => true
        | some (.number text) => !text.contains '.'
        | some _ => false
      if idOk then none else some .invalidId
    else some .badParams

/-- `Parameter`: a named, possibly optional method parameter. -/
structure Parameter where
  name : String
  optional : Bool := false

/-- The JSON-RPC error object `Error{Code, Message, Data}`. -/
structure RpcError where
  code : ℤ
  message : String
  data : Option JsonValue

/-- The five error-code constants. -/
def InvalidJSON : ℤ := -32700
/-- `InvalidRequest = -32600`. -/
def InvalidRequest : ℤ := -32600
/-- `MethodNotFound = -32601`. -/
def MethodNotFound : ℤ := -32601
/-- `InvalidParams : ℤ := -32602`. -/
def InvalidParams : ℤ := -32602
/-- `InternalError = -32603`. -/
def InternalError : ℤ := -32603

/-- `rpcErr`: the error object for a code; any unrecognised code falls
through to Internal Error. -/
def rpcErr (code : ℤ) (data : Option JsonValue) : RpcError :=
  if code = InvalidJSON then ⟨InvalidJSON, "Parse error", data⟩
  else if code = InvalidRequest then ⟨InvalidRequest, "Invalid Request", data⟩
  else if code = MethodNotFound then ⟨MethodNotFound, "Method Not Found", data⟩
  else if code = InvalidParams then ⟨InvalidParams, "Invalid Params", data⟩
  else ⟨InternalError, "Internal Error", data⟩

/-- The `response` struct: `id` has no `omitempty`, so `none` is
serialised as JSON `null`. -/
structure Response where
  version : String
  result : Option JsonValue
  error : Option RpcError
  id : Option JsonValue

/-- A registered `Method`.  `RegisterMethod` checks that the handler is
a function of arity `params.length` returning `(any, *Error)`, so the
handler is modelled by its argument count (`params.length`), a
type-directed per-argument JSON decoder, per-argument zero values, and
the function body itself. -/
structure Method where
  name : String
  params : List Parameter
  decodeArg : ℕ → JsonValue → Except String JsonValue
  zeroArg : ℕ → JsonValue
  run : List JsonValue → JsonValue × Option RpcError

/-- `reflect.TypeOf(handler).NumIn()`; registration enforces that it
equals the number of configured parameters. -/
def Method.arity (m : Method) : ℕ := m.params.length

/-- The `Server`: its method registry keyed by name. -/
structure Server where
  methods : List (String × Method)

/-- Go map lookup on the registry. -/
def Server.findMethod (s : Server) (name : String) : Option Method :=
  (s.methods.find? (fun kv => kv.1 = name)).map (·.2)

/-- Go map indexing on a decoded JSON object: with duplicate keys the
last occurrence wins. -/
def lookupField (fields : List (String × JsonValue)) (k : String) :
    Option JsonValue :=
  (fields.filter (fun f => f.1 = k)).getLast?.map (·.2)

/-- `buildArguments`: absent params yield no arguments; positional
params must match the handler arity exactly; named params are taken
from the map in configured order, substituting a zero value for a
missing optional parameter and failing on a missing required one. -/
def buildArguments (params : Option JsonValue) (m : Method) :
    Except String (List JsonValue) :=
  match params with
  | none => .ok []
  | some (.arr xs) =>
    if xs.length ≠ m.arity then
      .error "missing/unexpected params in list"
    else
      xs.enum.mapM (fun ix => m.decodeArg ix.1 ix.2)
  | some (.obj fields) =>
    m.params.enum.mapM (fun ip =>
      match lookupField fields ip.2.name with
      | some v => m.decodeArg ip.1 v
      | none =>
        if ip.2.optional then .ok (m.zeroArg ip.1)
        else .error "missing non-optional param")
  | some _ => .error "impossible param type: check request.isSane"

/-- `reflect.Value.Call` panics when the argument count differs from
the function's arity; the panic records both. -/
structure CallPanic where
  args : List JsonValue
  arity : ℕ

/-- `handleRequest`: mirrors the Go `(*response, error)` return — a
sanity failure yields `(none, some e)`, otherwise `(res, none)` where
`res` is `none` exactly for a notification.  The handler is called
before the notification check, so a mismatched argument count panics
(`Except.error`) even for notifications. -/
def handleRequest (s : Server) (req : Request) :
    Except CallPanic (Option Response × Option SanityErr) :=
  match isSane req with
  | some e => .ok (none, some e)
  | none =>
    match s.findMethod req.method with
    | none =>
      .ok (some ⟨"2.0", none, some (rpcErr MethodNotFound none), req.id⟩, none)
    | some m =>
      match buildArguments req.params m with
      | .error e =>
        .ok (some ⟨"2.0", none,
          some (rpcErr InvalidParams (some (.str e))), req.id⟩, none)
      | .ok args =>
        if args.length = m.arity then
          let tuple := m.run args
          if req.id.isNone then .ok (none, none)
          else
            match tuple.2 with
            | some err => .ok (some ⟨"2.0", none, some err, req.id⟩, none)
            | none => .ok (some ⟨"2.0", some tuple.1, none, req.id⟩, none)
        else .error ⟨args, m.arity⟩

/-- Processing of one raw batch element: a decode failure or a sanity
failure becomes an Invalid Request response object (the id is kept only
for a sanity failure other than `ErrInvalidID`); a notification yields
no response object. -/
def batchElementResponse (s : Server) (v : JsonValue) :
    Except CallPanic (Option Response) :=
  match decodeRequest v with
  | .error e =>
    .ok (some ⟨"2.0", none, some (rpcErr InvalidRequest (some (.str e))), none⟩)
  | .ok req =>
    match handleRequest s req with
    | .error p => .error p
    | .ok (_, some herr) =>
      .ok (some ⟨"2.0", none,
        some (rpcErr InvalidRequest (some (.str herr.message))),
        if herr = .invalidId then none else req.id⟩)
    | .ok (r, none) => .ok r

/-- The input to `HandleReader` after JSON parsing: `malformed` when the
bytes are not a JSON value (first non-blank byte not `[`), `single` for
a non-array JSON value, `batchMalformed` when the bytes begin with `[`
but the outer array does not parse, and `batch` for a parsed array of
raw elements. -/
inductive WireInput where
  | malformed (msg : String)
  | single (v : JsonValue)
  | batchMalformed (msg : String)
  | batch (elems : List JsonValue)

/-- What `HandleReader` writes back: `noContent` is the `(nil, nil)`
return, otherwise a single response object or an array of response
objects. -/
inductive HandlerOutput where
  | noContent
  | singleResponse (r : Response)
  | batchResponse (rs : List Response)

/-- `HandleReader`: single requests answer decode failures with a Parse
error envelope and sanity failures with an Invalid Request envelope
(keeping the id unless the failure is `ErrInvalidID`); batches answer an
empty array with Invalid Request `"empty batch"`, process each element
on its own, drop suppressed notifications, and return no bytes when
nothing survives. -/
def handleReader (s : Server) (input : WireInput) :
    Except CallPanic HandlerOutput :=
  match input with
  | .malformed msg =>
    .ok (.singleResponse ⟨"2.0", none,
      some (rpcErr InvalidJSON (some (.str msg))), none⟩)
  | .single v =>
    match decodeRequest v with
    | .error e =>
      .ok (.singleResponse ⟨"2.0", none,
        some (rpcErr InvalidJSON (some (.str e))), none⟩)
    | .ok req =>
      match handleRequest s req with
      | .error p => .error p
      | .ok (_, some herr) =>
        .ok (.singleResponse ⟨"2.0", none,
          some (rpcErr InvalidRequest (some (.str herr.message))),
          if herr = .invalidId then none else req.id⟩)
      | .ok (some r, none) => .ok (.singleResponse r)
      | .ok (none, none) => .ok .noContent
  | .batchMalformed msg =>
    .ok (.singleResponse ⟨"2.0", none,
      some (rpcErr InvalidJSON (some (.str msg))), none⟩)
  | .batch elems =>
    if elems.isEmpty then
      .ok (.singleResponse ⟨"2.0", none,
        some (rpcErr InvalidRequest (some (.str "empty batch"))), none⟩)
    else do
      let rs ← elems.foldlM (fun acc v => do
        match ← batchElementResponse s v with
        | some r => pure (acc ++ [r])
        | none => pure acc) ([] : List Response)
      if rs.isEmpty then pure .noContent else pure (.batchResponse rs)

/-! ## Helper lemmas -/

theorem chainLength_mk (t : Transaction) (f : Option HashError)
    (next : Option CantVerifyError) :
    (CantVerifyError.mk t f next).chainLength = 1 + chainLengthOpt next := by
  cases next <;> rfl

theorem chainTxs_mk (t : Transaction) (f : Option HashError)
    (next : Option CantVerifyError) :
    (CantVerifyError.mk t f next).chainTxs = t :: chainTxsOpt next := by
  cases next <;> rfl

theorem chainLength_pos (e : CantVerifyError) : 0 < e.chainLength := by
  cases e with
  | mk t f next => rw [chainLength_mk]; omega

theorem verifyTransactionHash_shape (pedersen : Felt → Felt → Felt)
    (t : Transaction) (n : Network) (e : CantVerifyError)
    (h : verifyTransactionHash pedersen t n = some e) :
    ∃ f, e = .mk t f none := by
  unfold verifyTransactionHash at h
  cases ht : transactionHash pedersen t n with
  | error e2 => rw [ht] at h; exact ⟨some e2, by injection h with h; exact h.symm⟩
  | ok hsh =>
    rw [ht] at h
    by_cases hh : hsh = t.hash
    · simp [hh] at h
    · simp only [hh, if_false] at h
      exact ⟨none, by injection h with h; exact h.symm⟩

theorem mismatchTxs_cons (pedersen : Felt → Felt → Felt)
    (tx : Transaction) (txs : List Transaction) (n : Network) :
    mismatchTxs pedersen (tx :: txs) n =
      if (verifyTransactionHash pedersen tx n).isSome then
        tx :: mismatchTxs pedersen txs n
      else mismatchTxs pedersen txs n := by
  simp only [mismatchTxs, List.filter_cons]

theorem verify_foldl_chainLength (pedersen : Felt → Felt → Felt) (n : Network) :
    ∀ (txs : List Transaction) (acc : Option CantVerifyError),
      chainLengthOpt (txs.foldl (verifyStep pedersen n) acc) =
        (mismatchTxs pedersen txs n).length + chainLengthOpt acc := by
  intro txs
  induction txs with
  | nil => intro acc; simp [mismatchTxs]
  | cons tx txs ih =>
    intro acc
    rw [List.foldl_cons, ih, mismatchTxs_cons]
    cases hv : verifyTransactionHash pedersen tx n with
    | none => simp [verifyStep, hv]
    | some e =>
      obtain ⟨f, rfl⟩ := verifyTransactionHash_shape pedersen tx n e hv
      simp only [verifyStep, hv, Option.isSome_some, if_true, List.length_cons]
      show (mismatchTxs pedersen txs n).length +
          chainLengthOpt (some (.mk tx f acc)) = _
      simp only [chainLengthOpt, chainLength_mk]
      omega

theorem verify_foldl_chainTxs (pedersen : Felt → Felt → Felt) (n : Network) :
    ∀ (txs : List Transaction) (acc : Option CantVerifyError),
      chainTxsOpt (txs.foldl (verifyStep pedersen n) acc) =
        (mismatchTxs pedersen txs n).reverse ++ chainTxsOpt acc := by
  intro txs
  induction txs with
  | nil => intro acc; simp [mismatchTxs]
  | cons tx txs ih =>
    intro acc
    rw [List.foldl_cons, ih, mismatchTxs_cons]
    cases hv : verifyTransactionHash pedersen tx n with
    | none => simp [verifyStep, hv]
    | some e =>
      obtain ⟨f, rfl⟩ := verifyTransactionHash_shape pedersen tx n e hv
      simp only [verifyStep, hv, Option.isSome_some, if_true,
        List.reverse_cons, List.append_assoc]
      show _ = (mismatchTxs pedersen txs n).reverse ++
          ([tx] ++ chainTxsOpt acc)
      congr 1
      show chainTxsOpt (some (.mk tx f acc)) = _
      simp [chainTxsOpt, chainTxs_mk]

theorem chainLengthOpt_eq_zero (x : Option CantVerifyError) :
    chainLengthOpt x = 0 ↔ x = none := by
  cases x with
  | none => simp [chainLengthOpt]
  | some e =>
    have h := chainLength_pos e
    constructor
    · intro h0
      exact absurd h0 (by show ¬e.chainLength = 0; omega)
    · intro h0; cases h0

theorem head?_reverse {α : Type} (l : List α) :
    l.reverse.head? = l.getLast? := by
  induction l with
  | nil => rfl
  | cons a l ih =>
    cases l with
    | nil => rfl
    | cons b m =>
      rw [List.getLast?_cons_cons, ← ih, List.reverse_cons]
      cases hr : (b :: m).reverse with
      | nil => simp at hr
      | cons x xs => simp [hr]

/-! ## Claims about transaction hashing and verification -/

/-- **C1.** Every Declare transaction of version 2 hashes to the
length-suffixed Pedersen array
`P*("declare", 2, sender, 0, P*(classHash), maxFee, C, nonce,
compiledClassHash)`; in particular the `S2` instance
`{sender=1, classHash=2, maxFee=3, nonce=4, compiledClassHash=5}` on
MAINNET equals `P*("declare", 2, 1, 0, P*(2), 3, chainIdMain, 4, 5)`. -/
theorem declare_v2_hash_recipe (pedersen : Felt → Felt → Felt) :
    (∀ (d : DeclareTransaction) (n : Network), d.version = 2 →
      declareTransactionHash pedersen d n =
        .ok (PedersenArray pedersen
          [declareFelt, 2, d.senderAddress, 0,
           PedersenArray pedersen [d.classHash], d.maxFee, n.chainID,
           d.nonce, d.compiledClassHash])) ∧
    declareTransactionHash pedersen ⟨0, 2, 1, 3, [], 4, 2, 5⟩ .mainnet =
      .ok (PedersenArray pedersen
        [declareFelt, 2, 1, 0, PedersenArray pedersen [2], 3,
         chainIdMain, 4, 5]) := by
  constructor
  · intro d n h
    simp [declareTransactionHash, h]
  · rfl

/-- Witness for `declare_v2_hash_recipe`: the version-2 recipe applied
at a concrete transaction and a concrete stand-in for `pedersen`. -/
theorem declare_v2_hash_recipe_witness :
    declareTransactionHash (fun a b => 2 * a + 3 * b)
        ⟨9, 2, 1, 3, [], 4, 2, 5⟩ .goerli =
      .ok (PedersenArray (fun a b => 2 * a + 3 * b)
        [declareFelt, 2, 1, 0,
         PedersenArray (fun a b => 2 * a + 3 * b) [2], 3,
         Network.goerli.chainID, 4, 5]) :=
  (declare_v2_hash_recipe (fun a b => 2 * a + 3 * b)).1
    ⟨9, 2, 1, 3, [], 4, 2, 5⟩ .goerli rfl

/-- **C2.** L1Handler hashing: version 0 with an absent nonce trusts
the declared hash; version 0 with a nonce recomputes
`P*("l1_handler", 0, contract, selector, P*(callData), 0, C, nonce)`;
any other version fails with `InvalidTransactionVersion`. -/
theorem l1Handler_hash_recipe (pedersen : Felt → Felt → Felt) :
    (∀ (l : L1HandlerTransaction) (n : Network), l.version = 0 →
      l.nonce = none →
      l1HandlerTransactionHash pedersen l n = .ok l.transactionHash ∧
      verifyTransactionHash pedersen (.l1Handler l) n = none) ∧
    (∀ (l : L1HandlerTransaction) (n : Network) (nz : Felt),
      l.version = 0 → l.nonce = some nz →
      l1HandlerTransactionHash pedersen l n =
        .ok (PedersenArray pedersen
          [l1HandlerFelt, 0, l.contractAddress, l.entryPointSelector,
           PedersenArray pedersen l.callData, 0, n.chainID, nz])) ∧
    (∀ (l : L1HandlerTransaction) (n : Network), l.version ≠ 0 →
      l1HandlerTransactionHash pedersen l n =
        .error (.invalidTransactionVersion (.l1Handler l) l.version)) := by
  refine ⟨?_, ?_, ?_⟩
  · intro l n hv hn
    constructor
    · simp [l1HandlerTransactionHash, hv, hn]
    · simp [verifyTransactionHash, transactionHash,
        l1HandlerTransactionHash, hv, hn, Transaction.hash]
  · intro l n nz hv hn
    simp [l1HandlerTransactionHash, hv, hn]
  · intro l n hv
    simp [l1HandlerTransactionHash, hv]

/-- Witness for `l1Handler_hash_recipe`: all three arms applied at
concrete transactions. -/
theorem l1Handler_hash_recipe_witness :
    (l1HandlerTransactionHash (fun a b => a + b)
        ⟨77, 1, 2, none, [5], 0⟩ .mainnet = .ok 77 ∧
      verifyTransactionHash (fun a b => a + b)
        (.l1Handler ⟨77, 1, 2, none, [5], 0⟩) .mainnet = none) ∧
    l1HandlerTransactionHash (fun a b => a + b)
        ⟨77, 1, 2, some 9, [5], 0⟩ .mainnet =
      .ok (PedersenArray (fun a b => a + b)
        [l1HandlerFelt, 0, 1, 2,
         PedersenArray (fun a b => a + b) [5], 0,
         Network.mainnet.chainID, 9]) ∧
    l1HandlerTransactionHash (fun a b => a + b)
        ⟨77, 1, 2, some 9, [5], 3⟩ .mainnet =
      .error (.invalidTransactionVersion
        (.l1Handler ⟨77, 1, 2, some 9, [5], 3⟩) 3) :=
  ⟨(l1Handler_hash_recipe (fun a b => a + b)).1
      ⟨77, 1, 2, none, [5], 0⟩ .mainnet rfl rfl,
   (l1Handler_hash_recipe (fun a b => a + b)).2.1
      ⟨77, 1, 2, some 9, [5], 0⟩ .mainnet 9 rfl rfl,
   (l1Handler_hash_recipe (fun a b => a + b)).2.2
      ⟨77, 1, 2, some 9, [5], 3⟩ .mainnet (by decide)⟩

/-- **C3.** `verifyTransactions` checks every transaction: it returns
no error exactly when no transaction mismatches, and the length of the
returned diagnostic chain always equals the number of mismatching
transactions. -/
theorem verifyTransactions_total (pedersen : Felt → Felt → Felt)
    (txs : List Transaction) (n : Network) :
    chainLengthOpt (verifyTransactions pedersen txs n) =
      (mismatchTxs pedersen txs n).length ∧
    (verifyTransactions pedersen txs n = none ↔
      mismatchTxs pedersen txs n = []) ∧
    ∀ tx : Transaction, (verifyTransactionHash pedersen tx n).isSome ↔
      ((∃ e, transactionHash pedersen tx n = .error e) ∨
        (∃ h, transactionHash pedersen tx n = .ok h ∧ h ≠ tx.hash)) := by
  have hlen := verify_foldl_chainLength pedersen n txs none
  rw [show chainLengthOpt none = 0 from rfl, Nat.add_zero] at hlen
  refine ⟨hlen, ?_, ?_⟩
  · rw [← List.length_eq_zero, ← hlen]
    exact (chainLengthOpt_eq_zero _).symm
  · intro tx
    unfold verifyTransactionHash
    cases ht : transactionHash pedersen tx n with
    | error e => simp
    | ok h =>
      by_cases hh : h = tx.hash
      · simp [hh]
      · simp [hh]

/-- **C9.** With at least two mismatches, the diagnostic chain
enumerates the mismatching transactions in reverse input order: the
head is the last failing transaction and following `Unwrap` walks back
to the first. -/
theorem verifyTransactions_reverse_order (pedersen : Felt → Felt → Felt)
    (txs : List Transaction) (n : Network)
    (h : 2 ≤ (mismatchTxs pedersen txs n).length) :
    ∃ c, verifyTransactions pedersen txs n = some c ∧
      c.chainTxs = (mismatchTxs pedersen txs n).reverse ∧
      c.chainTxs.head? = (mismatchTxs pedersen txs n).getLast? := by
  have htxs := verify_foldl_chainTxs pedersen n txs none
  rw [show chainTxsOpt none = [] from rfl, List.append_nil] at htxs
  cases hv : verifyTransactions pedersen txs n with
  | none =>
    exfalso
    have hv' : txs.foldl (verifyStep pedersen n) none = none := hv
    have hlen := verify_foldl_chainLength pedersen n txs none
    rw [hv', show chainLengthOpt none = 0 from rfl, Nat.add_zero] at hlen
    omega
  | some c =>
    have hv' : txs.foldl (verifyStep pedersen n) none = some c := hv
    rw [hv'] at htxs
    have hc : c.chainTxs = (mismatchTxs pedersen txs n).reverse := htxs
    exact ⟨c, rfl, hc, by rw [hc, head?_reverse]⟩

/-- Witness for `verifyTransactions_reverse_order`: two Declare v1
transactions whose declared hashes differ from the recomputed ones
under the constant-zero stand-in hash. -/
theorem verifyTransactions_reverse_order_witness :
    ∃ c, verifyTransactions (fun _ _ => 0)
        [.declare ⟨1, 0, 0, 0, [], 0, 1, 0⟩,
         .declare ⟨2, 0, 0, 0, [], 0, 1, 0⟩] .mainnet = some c ∧
      c.chainTxs = (mismatchTxs (fun _ _ => 0)
        [.declare ⟨1, 0, 0, 0, [], 0, 1, 0⟩,
         .declare ⟨2, 0, 0, 0, [], 0, 1, 0⟩] .mainnet).reverse ∧
      c.chainTxs.head? = (mismatchTxs (fun _ _ => 0)
        [.declare ⟨1, 0, 0, 0, [], 0, 1, 0⟩,
         .declare ⟨2, 0, 0, 0, [], 0, 1, 0⟩] .mainnet).getLast? :=
  verifyTransactions_reverse_order (fun _ _ => 0) _ .mainnet (by decide)

/-- The value inserted for a transaction by the commitment loop. -/
def commitmentEntry (pedersen : Felt → Felt → Felt) (i : ℕ)
    (tx : Transaction) : Felt × Felt :=
  (fromUint64 i, pedersen tx.hash
    (if tx.isInvoke then PedersenArray pedersen tx.signature
     else PedersenArray pedersen []))

theorem commitment_foldl (pedersen : Felt → Felt → Felt) :
    ∀ (txs : List Transaction) (c : ℕ) (acc : List (Felt × Felt)),
      txs.foldl (commitmentStep pedersen) (c, acc) =
        (c + txs.length,
         acc ++ (txs.enumFrom c).map
           (fun itx => commitmentEntry pedersen itx.1 itx.2)) := by
  intro txs
  induction txs with
  | nil => intro c acc; simp
  | cons tx txs ih =>
    intro c acc
    rw [List.foldl_cons,
      show commitmentStep pedersen (c, acc) tx =
        (c + 1, acc ++ [commitmentEntry pedersen c tx]) from rfl,
      ih]
    refine Prod.ext ?_ ?_
    · show c + 1 + txs.length = c + (txs.length + 1)
      omega
    · show (acc ++ [commitmentEntry pedersen c tx]) ++ _ = acc ++ _
      rw [List.append_assoc]
      congr 1

/-- **C4.** `transactionCommitment` inserts one entry per transaction:
at index `i` the key is `fromUint64(i)` and the value is
`pedersen(tx.hash(), sigHash)`, with `sigHash` the Pedersen-array hash
of the signature for an Invoke transaction and the empty-array Pedersen
hash for every other variant. -/
theorem transactionCommitment_inserts (pedersen : Felt → Felt → Felt)
    (txs : List Transaction) :
    (transactionCommitmentPuts pedersen txs).length = txs.length ∧
    ∀ (i : ℕ) (tx : Transaction), txs[i]? = some tx →
      (transactionCommitmentPuts pedersen txs)[i]? =
        some (fromUint64 i, pedersen tx.hash
          (if tx.isInvoke then PedersenArray pedersen tx.signature
           else PedersenArray pedersen [])) := by
  have hputs : transactionCommitmentPuts pedersen txs =
      (txs.enumFrom 0).map
        (fun itx => commitmentEntry pedersen itx.1 itx.2) := by
    rw [transactionCommitmentPuts, commitment_foldl]
    simp
  constructor
  · rw [hputs]
    simp
  · intro i tx h
    rw [hputs, List.getElem?_map, List.getElem?_enumFrom, h]
    simp [commitmentEntry]

/-- Witness for `transactionCommitment_inserts`: a two-transaction list
with an Invoke (signature hashed) followed by a Declare (empty-array
signature hash). -/
theorem transactionCommitment_inserts_witness :
    (transactionCommitmentPuts (fun a b => a + 2 * b)
        [.invoke ⟨10, [], [6, 7], 0, 0, 1, 0, 0, 0⟩,
         .declare ⟨11, 0, 0, 0, [8], 0, 1, 0⟩])[1]? =
      some (fromUint64 1, (fun a b => a + 2 * b)
        (Transaction.declare ⟨11, 0, 0, 0, [8], 0, 1, 0⟩).hash
        (if (Transaction.declare ⟨11, 0, 0, 0, [8], 0, 1, 0⟩).isInvoke then
          PedersenArray (fun a b => a + 2 * b)
            (Transaction.declare ⟨11, 0, 0, 0, [8], 0, 1, 0⟩).signature
         else PedersenArray (fun a b => a + 2 * b) [])) :=
  (transactionCommitment_inserts (fun a b => a + 2 * b)
      [.invoke ⟨10, [], [6, 7], 0, 0, 1, 0, 0, 0⟩,
       .declare ⟨11, 0, 0, 0, [8], 0, 1, 0⟩]).2 1
    (.declare ⟨11, 0, 0, 0, [8], 0, 1, 0⟩) rfl

/-! ## Claims about the JSON-RPC dispatcher -/

/-- A zero-parameter demo method (its handler ignores its arguments,
like `starknet_chainId`). -/
def pingMethod : Method :=
  ⟨"ping", [], fun _ v => .ok v, fun _ => .null, fun _ => (.str "pong", none)⟩

/-- A one-parameter demo method. -/
def echoMethod : Method :=
  ⟨"echo", [⟨"x", false⟩], fun _ v => .ok v, fun _ => .null,
   fun args => (args.headD .null, none)⟩

/-- A demo registry holding the two demo methods. -/
def demoServer : Server := ⟨[("ping", pingMethod), ("echo", echoMethod)]⟩

/-- A notification whose dispatch reaches the handler call returns the
`(nil, nil)` pair: no response object. -/
theorem handleRequest_notification (s : Server) (req : Request)
    (m : Method) (args : List JsonValue)
    (hid : req.id = none) (hs : isSane req = none)
    (hm : s.findMethod req.method = some m)
    (hb : buildArguments req.params m = .ok args)
    (ha : args.length = m.arity) :
    handleRequest s req = .ok (none, none) := by
  simp [handleRequest, hs, hm, hb, ha, hid]

/-- **C7 counterexample.** The server's message strings for `-32601`,
`-32602` and `-32603` are not the canonical JSON-RPC 2.0 strings the
claim states: the code capitalises every word. -/
theorem rpcErr_message_counterexample :
    (rpcErr MethodNotFound none).message = "Method Not Found" ∧
    (rpcErr MethodNotFound none).message ≠ "Method not found" ∧
    (rpcErr InvalidParams none).message ≠ "Invalid params" ∧
    (rpcErr InternalError none).message ≠ "Internal error" := by
  refine ⟨rfl, ?_, ?_, ?_⟩ <;> decide

/-- **C7 (amended).** The five error objects carry exactly the strings
the code produces: `"Parse error"`, `"Invalid Request"`,
`"Method Not Found"`, `"Invalid Params"`, `"Internal Error"`, with the
matching numeric codes. -/
theorem rpcErr_messages (d : Option JsonValue) :
    rpcErr InvalidJSON d = ⟨-32700, "Parse error", d⟩ ∧
    rpcErr InvalidRequest d = ⟨-32600, "Invalid Request", d⟩ ∧
    rpcErr MethodNotFound d = ⟨-32601, "Method Not Found", d⟩ ∧
    rpcErr InvalidParams d = ⟨-32602, "Invalid Params", d⟩ ∧
    rpcErr InternalError d = ⟨-32603, "Internal Error", d⟩ :=
  ⟨rfl, rfl, rfl, rfl, rfl⟩

/-- **C8.** For a sane request naming a registered method with at least
one declared parameter, an entirely absent `params` field is never
answered with Invalid Params: `buildArguments` returns the empty
argument list without error, and dispatch reaches the reflective call
with zero arguments against a positive arity (which panics). -/
theorem absent_params_reaches_call (s : Server) (req : Request)
    (m : Method)
    (hs : isSane req = none)
    (hm : s.findMethod req.method = some m)
    (hp : req.params = none)
    (ha : 1 ≤ m.params.length) :
    buildArguments req.params m = .ok [] ∧
    handleRequest s req = .error ⟨[], m.arity⟩ ∧
    0 < m.arity := by
  have hb : buildArguments req.params m = .ok [] := by rw [hp]; rfl
  have harity : m.arity = m.params.length := rfl
  have hlen : ¬(0 = m.arity) := by omega
  refine ⟨hb, ?_, by omega⟩
  simp [handleRequest, hs, hm, hb, hlen]

/-- Witness for `absent_params_reaches_call`: the one-parameter `echo`
method called with no `params` field. -/
theorem absent_params_reaches_call_witness :
    buildArguments (Request.mk "2.0" "echo" none (some (.str "1"))).params
        echoMethod = .ok [] ∧
    handleRequest demoServer ⟨"2.0", "echo", none, some (.str "1")⟩ =
      .error ⟨[], echoMethod.arity⟩ ∧
    0 < echoMethod.arity :=
  absent_params_reaches_call demoServer ⟨"2.0", "echo", none, some (.str "1")⟩
    echoMethod rfl rfl rfl (by decide)

/-- **C5 counterexample.** A request without an `id` whose method is
not registered is not suppressed: the dispatcher answers it with a
Method Not Found response (with `null` id), both as a single request
and inside a batch. -/
theorem notification_not_suppressed_counterexample :
    handleReader demoServer
        (.single (.obj [("jsonrpc", .str "2.0"), ("method", .str "nope")])) =
      .ok (.singleResponse ⟨"2.0", none,
        some ⟨-32601, "Method Not Found", none⟩, none⟩) ∧
    handleReader demoServer
        (.single (.obj [("jsonrpc", .str "2.0"), ("method", .str "nope")])) ≠
      .ok .noContent ∧
    batchElementResponse demoServer
        (.obj [("jsonrpc", .str "2.0"), ("method", .str "nope")]) ≠
      .ok none := by
  refine ⟨rfl, ?_, ?_⟩
  · intro heq
    rw [show handleReader demoServer
        (.single (.obj [("jsonrpc", .str "2.0"), ("method", .str "nope")])) =
      .ok (.singleResponse ⟨"2.0", none,
        some ⟨-32601, "Method Not Found", none⟩, none⟩) from rfl] at heq
    injection heq with heq
    exact HandlerOutput.noConfusion heq
  · intro heq
    rw [show batchElementResponse demoServer
        (.obj [("jsonrpc", .str "2.0"), ("method", .str "nope")]) =
      .ok (some ⟨"2.0", none,
        some ⟨-32601, "Method Not Found", none⟩, none⟩) from rfl] at heq
    injection heq with heq
    exact Option.noConfusion heq

/-- **C5 (amended).** A request without an `id` is suppressed exactly
when dispatch reaches the handler call: if the request is sane, its
method registered and its arguments bind with matching arity, then no
response is produced (no bytes for a single request, omission from a
batch); otherwise the dispatcher emits an error response whose id is
`null`. -/
theorem notification_suppression (s : Server) (v : JsonValue)
    (req : Request) (m : Method) (args : List JsonValue)
    (hd : decodeRequest v = .ok req)
    (hid : req.id = none)
    (hs : isSane req = none)
    (hm : s.findMethod req.method = some m)
    (hb : buildArguments req.params m = .ok args)
    (ha : args.length = m.arity) :
    handleRequest s req = .ok (none, none) ∧
    handleReader s (.single v) = .ok .noContent ∧
    batchElementResponse s v = .ok none := by
  have h1 := handleRequest_notification s req m args hid hs hm hb ha
  refine ⟨h1, ?_, ?_⟩
  · simp [handleReader, hd, h1]
  · simp [batchElementResponse, hd, h1]

/-- Witness for `notification_suppression`: a sane `ping` notification
against the demo registry. -/
theorem notification_suppression_witness :
    handleRequest demoServer ⟨"2.0", "ping", none, none⟩ = .ok (none, none) ∧
    handleReader demoServer
        (.single (.obj [("jsonrpc", .str "2.0"), ("method", .str "ping")])) =
      .ok .noContent ∧
    batchElementResponse demoServer
        (.obj [("jsonrpc", .str "2.0"), ("method", .str "ping")]) =
      .ok none :=
  notification_suppression demoServer
    (.obj [("jsonrpc", .str "2.0"), ("method", .str "ping")])
    ⟨"2.0", "ping", none, none⟩ pingMethod [] rfl rfl rfl rfl rfl rfl

/-- **C6 counterexample.** A batch element that fails to decode into a
request is answered with code `-32600` (Invalid Request), while the
same body processed as a single request is answered with `-32700`
(Parse error): batch elements are not processed exactly as single
requests, and the claimed `-32700` is wrong for them. -/
theorem batch_decode_code_counterexample :
    handleReader demoServer (.batch [.str "x"]) =
      .ok (.batchResponse [⟨"2.0", none, some ⟨-32600, "Invalid Request",
        some (.str "json: cannot unmarshal value into Go value of type jsonrpc.request")⟩,
        none⟩]) ∧
    handleReader demoServer (.single (.str "x")) =
      .ok (.singleResponse ⟨"2.0", none, some ⟨-32700, "Parse error",
        some (.str "json: cannot unmarshal value into Go value of type jsonrpc.request")⟩,
        none⟩) ∧
    (-32600 : ℤ) ≠ -32700 :=
  ⟨rfl, rfl, by decide⟩

/-- **C6 (amended).** Inside a batch, an element whose decoding fails
produces a response with code `-32600` (Invalid Request) and `null`
id, and an element that decodes but fails the sanity checks produces
`-32600` preserving the element's id unless the failure is the
id-validity failure. -/
theorem batch_element_processing (s : Server) (v : JsonValue)
    (e : String) (req : Request) (herr : SanityErr) :
    (decodeRequest v = .error e →
      handleReader s (.batch [v]) =
        .ok (.batchResponse [⟨"2.0", none,
          some (rpcErr InvalidRequest (some (.str e))), none⟩])) ∧
    (decodeRequest v = .ok req → isSane req = some herr →
      handleReader s (.batch [v]) =
        .ok (.batchResponse [⟨"2.0", none,
          some (rpcErr InvalidRequest (some (.str herr.message))),
          if herr = .invalidId then none else req.id⟩])) := by
  constructor
  · intro hd
    have hb : batchElementResponse s v =
        .ok (some ⟨"2.0", none,
          some (rpcErr InvalidRequest (some (.str e))), none⟩) := by
      simp [batchElementResponse, hd]
    simp [handleReader, hb]
    rfl
  · intro hd hs
    have hh : handleRequest s req = .ok (none, some herr) := by
      simp [handleRequest, hs]
    have hb : batchElementResponse s v =
        .ok (some ⟨"2.0", none,
          some (rpcErr InvalidRequest (some (.str herr.message))),
          if herr = .invalidId then none else req.id⟩) := by
      simp [batchElementResponse, hd, hh]
    simp [handleReader, hb]
    rfl

/-- Witness for `batch_element_processing`: a non-object element
(decode failure) and a version-`"1.0"` element (sanity failure keeping
its id). -/
theorem batch_element_processing_witness :
    handleReader demoServer (.batch [.str "x"]) =
      .ok (.batchResponse [⟨"2.0", none,
        some (rpcErr InvalidRequest (some (.str
          "json: cannot unmarshal value into Go value of type jsonrpc.request"))),
        none⟩]) ∧
    handleReader demoServer
        (.batch [.obj [("jsonrpc", .str "1.0"), ("method", .str "m"),
          ("id", .str "7")]]) =
      .ok (.batchResponse [⟨"2.0", none,
        some (rpcErr InvalidRequest (some (.str SanityErr.badVersion.message))),
        if SanityErr.badVersion = SanityErr.invalidId then none
        else (Request.mk "1.0" "m" none (some (.str "7"))).id⟩]) :=
  ⟨(batch_element_processing demoServer (.str "x")
      "json: cannot unmarshal value into Go value of type jsonrpc.request"
      Request.empty .badVersion).1 rfl,
   (batch_element_processing demoServer
      (.obj [("jsonrpc", .str "1.0"), ("method", .str "m"),
        ("id", .str "7")])
      "" ⟨"1.0", "m", none, some (.str "7")⟩ .badVersion).2 rfl rfl⟩

/-- Decoding one field whose key does not fold to `"id"` leaves the id
slot unchanged. -/
theorem applyRequestField_keeps_id (r : Request) (f : String × JsonValue)
    (hne : foldKey f.1 ≠ "id") (r' : Request)
    (h : applyRequestField r f = .ok r') : r'.id = r.id := by
  obtain ⟨k, val⟩ := f
  unfold applyRequestField at h
  dsimp only at h hne
  by_cases h1 : foldKey k = "jsonrpc"
  · rw [if_pos h1] at h
    cases val <;> simp_all
    subst h; rfl
  · rw [if_neg h1] at h
    by_cases h2 : foldKey k = "method"
    · rw [if_pos h2] at h
      cases val <;> simp_all
      subst h; rfl
    · rw [if_neg h2] at h
      by_cases h3 : foldKey k = "params"
      · rw [if_pos h3] at h
        cases val <;> simp_all <;> (subst h; rfl)
      · rw [if_neg h3, if_neg hne] at h
        injection h with h
        rw [← h]

/-- Decoding a field list with no key folding to `"id"` leaves the id
slot at its initial value. -/
theorem decode_fold_keeps_id :
    ∀ (fields : List (String × JsonValue)) (init r : Request),
      (∀ f ∈ fields, foldKey f.1 ≠ "id") →
      fields.foldlM applyRequestField init = .ok r → r.id = init.id := by
  intro fields
  induction fields with
  | nil =>
    intro init r _ h
    have h' : (Except.ok init : Except String Request) = .ok r := h
    injection h' with h'
    rw [← h']
  | cons f fs ih =>
    intro init r hno h
    rw [List.foldlM_cons] at h
    cases ha : applyRequestField init f with
    | error e =>
      rw [ha] at h
      have h' : (Except.error e : Except String Request) = .ok r := h
      exact Except.noConfusion h'
    | ok r1 =>
      rw [ha] at h
      have h' : fs.foldlM applyRequestField r1 = .ok r := h
      rw [ih r1 r (fun g hg => hno g (List.mem_cons_of_mem _ hg)) h',
        applyRequestField_keeps_id init f (hno f (List.mem_cons_self _ _)) r1 ha]

/-- `foldlM` over an appended list, in the `Except` monad. -/
theorem foldlM_append_except {α β : Type}
    (f : β → α → Except String β) (l1 : List α) :
    ∀ (init : β) (l2 : List α),
      (l1 ++ l2).foldlM f init =
        l1.foldlM f init >>= fun x => l2.foldlM f x := by
  induction l1 with
  | nil => intro init l2; rfl
  | cons a l ih =>
    intro init l2
    rw [List.cons_append, List.foldlM_cons, List.foldlM_cons]
    cases ha : f init a with
    | error e => rfl
    | ok b => exact ih b l2

/-- **C10.** A JSON `null` id is identical to an absent id: when no
other key of the object matches the id field (keys match the field
tags case-insensitively, so this excludes `"ID"` and the like, not
just `"id"`), appending an explicit `"id": null` member decodes to the
same request as leaving the field out; any request decoded from a body
whose `id` is `null` carries no id; such a request is never rejected
as having an invalid id; and when its method is registered and its
arguments bind it is handled as a notification, producing no response
object. -/
theorem null_id_notification (s : Server)
    (fields : List (String × JsonValue)) (req : Request) (m : Method)
    (args : List JsonValue) :
    ((∀ f ∈ fields, foldKey f.1 ≠ "id") →
      decodeRequest (.obj (fields ++ [("id", .null)])) =
        decodeRequest (.obj fields)) ∧
    (decodeRequest (.obj (fields ++ [("id", .null)])) = .ok req →
      req.id = none) ∧
    (req.id = none → isSane req ≠ some .invalidId) ∧
    (req.id = none → isSane req = none →
      s.findMethod req.method = some m →
      buildArguments req.params m = .ok args → args.length = m.arity →
      handleRequest s req = .ok (none, none)) := by
  refine ⟨?_, ?_, ?_, ?_⟩
  · intro hno
    show (fields ++ [("id", JsonValue.null)]).foldlM applyRequestField
        Request.empty = fields.foldlM applyRequestField Request.empty
    rw [foldlM_append_except]
    cases hd : fields.foldlM applyRequestField Request.empty with
    | error e => rfl
    | ok r =>
      have hid : r.id = Request.empty.id :=
        decode_fold_keeps_id fields Request.empty r hno hd
      show (Except.ok { r with id := none } : Except String Request) = .ok r
      cases r
      simp only [Request.empty] at hid
      rw [hid]
  · intro h
    have h' : (fields ++ [("id", JsonValue.null)]).foldlM applyRequestField
        Request.empty = .ok req := h
    rw [foldlM_append_except] at h'
    cases hd : fields.foldlM applyRequestField Request.empty with
    | error e =>
      rw [hd] at h'
      have h'' : (Except.error e : Except String Request) = .ok req := h'
      exact Except.noConfusion h''
    | ok r =>
      rw [hd] at h'
      have h'' : (Except.ok { r with id := none } :
        Except String Request) = .ok req := h'
      injection h'' with h''
      rw [← h'']
  · intro hid hcon
    simp only [isSane, hid] at hcon
    repeat' split at hcon
    all_goals simp_all
  · exact fun hid hs hm hb ha =>
      handleRequest_notification s req m args hid hs hm hb ha

/-- Witness for `null_id_notification`: the `ping` request with an
explicit `"id": null` member. -/
theorem null_id_notification_witness :
    decodeRequest (.obj [("jsonrpc", .str "2.0"), ("method", .str "ping"),
        ("id", .null)]) =
      decodeRequest (.obj [("jsonrpc", .str "2.0"),
        ("method", .str "ping")]) ∧
    (Request.mk "2.0" "ping" none none).id = none ∧
    isSane ⟨"2.0", "ping", none, none⟩ ≠ some .invalidId ∧
    handleRequest demoServer ⟨"2.0", "ping", none, none⟩ =
      .ok (none, none) :=
  ⟨(null_id_notification demoServer
      [("jsonrpc", .str "2.0"), ("method", .str "ping")]
      ⟨"2.0", "ping", none, none⟩ pingMethod []).1 (by decide),
   (null_id_notification demoServer
      [("jsonrpc", .str "2.0"), ("method", .str "ping")]
      ⟨"2.0", "ping", none, none⟩ pingMethod []).2.1 rfl,
   (null_id_notification demoServer
      [("jsonrpc", .str "2.0"), ("method", .str "ping")]
      ⟨"2.0", "ping", none, none⟩ pingMethod []).2.2.1 rfl,
   (null_id_notification demoServer
      [("jsonrpc", .str "2.0"), ("method", .str "ping")]
      ⟨"2.0", "ping", none, none⟩ pingMethod []).2.2.2 rfl rfl rfl rfl rfl⟩

end Juno
